import Mathlib

/-!
Shallow embedding of `src/oh_my_theme/config.py` (the whole repository:
a persistent JSON configuration store) and proofs of its specified
properties.

JSON values are modelled by the inductive `JValue`; objects are ordered
association lists, mirroring Python dict insertion order.  The filesystem
is a small state `FS`: the configuration file's content (absent, parseable
JSON, or unparseable junk) plus environment flags saying whether the
configuration directory exists and whether directory creation, file reads
and file writes succeed.  Each Python function becomes a Lean function on
`FS`; an uncaught Python exception is `Except.error ()`, and a normal
return is `Except.ok` carrying the returned value and the post-state.
-/

namespace OhMyTheme

/-- JSON values as produced by `json.load`: null, booleans, integers,
strings, arrays, and objects as ordered key-value lists. -/
inductive JValue : Type where
  | jnull : JValue
  | jbool : Bool → JValue
  | jint : Int → JValue
  | jstr : String → JValue
  | jarr : List JValue → JValue
  | jobj : List (String × JValue) → JValue

/-- Python `v == u` where `u` is a `str`: string equality against another
`str`, `False` against any other JSON value.  Every comparison in
config.py has a `str` on one side (`repo_url`, or a key of the default
dict), so this captures exactly the equality the source uses. -/
def eqStr : JValue → String → Bool
  | .jstr s, u => s = u
  | _, _ => false

/-- Python `u in xs` for a `str` `u` and a list `xs`. -/
def listContainsStr : List JValue → String → Bool
  | [], _ => false
  | x :: xs, u => eqStr x u || listContainsStr xs u

/-- Python `d[key]` lookup on a dict modelled as an association list:
first binding wins (a parsed dict never has duplicate keys). -/
def getKey : List (String × JValue) → String → Option JValue
  | [], _ => none
  | (k, v) :: rest, key => if k = key then some v else getKey rest key

/-- Python `key in d` membership test on a dict. -/
def hasKey (fields : List (String × JValue)) (key : String) : Bool :=
  (getKey fields key).isSome

/-- Python `d[key] = v` assignment on a dict: replaces the value in place
if the key is present, otherwise appends the new binding at the end
(dict insertion order). -/
def setKey : List (String × JValue) → String → JValue → List (String × JValue)
  | [], key, v => [(key, v)]
  | (k, w) :: rest, key, v =>
      if k = key then (k, v) :: rest else (k, w) :: setKey rest key v

/-- Python `list.remove(u)` for a `str` `u`: drop the first element equal
to `u`. -/
def removeFirst : List JValue → String → List JValue
  | [], _ => []
  | x :: xs, u => if eqStr x u then xs else x :: removeFirst xs u

/-- Number of occurrences of the string `u` in a Python list. -/
def countOcc : List JValue → String → Nat
  | [], _ => 0
  | x :: xs, u => (if eqStr x u then 1 else 0) + countOcc xs u

/-- Python `pat in s` substring test on strings. -/
def strContains (s pat : String) : Bool :=
  if pat = "" then true else (s.splitOn pat).length != 1

/-- Content of the configuration file: text that parses to a JSON value,
or text that fails to parse (`json.JSONDecodeError`). -/
inductive FileContent : Type where
  | json : JValue → FileContent
  | junk : FileContent

/-- Filesystem state seen by the module: the configuration file at
`CONFIG_FILE` (`none` = absent), whether `CONFIG_DIR` exists, and
environment flags for whether `os.makedirs`, opening the file for
reading, and writing the file succeed. -/
structure FS : Type where
  dirExists : Bool
  mkdirOk : Bool
  file : Option FileContent
  readOk : Bool
  writeOk : Bool

/-- `ensure_config_dir` (config.py lines 21-24): create `CONFIG_DIR` when
absent; an `OSError` from `os.makedirs` is not caught and propagates. -/
def ensure_config_dir (fs : FS) : Except Unit FS :=
  if fs.dirExists then .ok fs
  else if fs.mkdirOk then .ok { fs with dirExists := true }
  else .error ()

/-- The `settings` part of `default_config` in `load_config`. -/
def default_settings : List (String × JValue) :=
  [("cache_expiry", .jint 300), ("max_cache_size", .jint 50)]

/-- The `default_config` dict built at the top of `load_config`
(config.py lines 34-37). -/
def default_config : List (String × JValue) :=
  [("custom_repositories", .jarr []), ("settings", .jobj default_settings)]

/-- The merge loop of `load_config` (config.py lines 47-49): for each
default key absent from the parsed dict, add the default binding. -/
def mergeDefaults (fields : List (String × JValue)) : List (String × JValue) :=
  default_config.foldl
    (fun cfg kv => if hasKey cfg kv.1 then cfg else cfg ++ [kv]) fields

/-- `load_config` (config.py lines 27-54).  Missing file, read `OSError`
and parse failure all yield `default_config`.  A parsed object goes
through the merge loop.  A parsed non-object reaches the merge loop too:
`key not in config` then raises `TypeError` on non-iterables, and on a
list or string the subsequent `config[key] = value` assignment raises
`TypeError`; only a list or string already containing both default keys
(as an element, resp. substring) escapes the loop untouched.  None of
these `TypeError`s is caught, so they surface as `Except.error`. -/
def load_config (fs : FS) : Except Unit (JValue × FS) :=
  match fs.file with
  | none => .ok (.jobj default_config, fs)
  | some content =>
    if fs.readOk then
      match content with
      | .junk => .ok (.jobj default_config, fs)
      | .json (.jobj fields) => .ok (.jobj (mergeDefaults fields), fs)
      | .json (.jarr xs) =>
          if listContainsStr xs "custom_repositories" then
            if listContainsStr xs "settings" then .ok (.jarr xs, fs)
            else .error ()
          else .error ()
      | .json (.jstr s) =>
          if strContains s "custom_repositories" then
            if strContains s "settings" then .ok (.jstr s, fs)
            else .error ()
          else .error ()
      | .json _ => .error ()
    else .ok (.jobj default_config, fs)

/-- `save_config` (config.py lines 57-74): ensure the directory (whose
failure propagates), then write; a write `OSError` is caught and turned
into `False`, success returns `True`. -/
def save_config (config : JValue) (fs : FS) : Except Unit (Bool × FS) :=
  match ensure_config_dir fs with
  | .error e => .error e
  | .ok fs1 =>
      if fs1.writeOk then .ok (true, { fs1 with file := some (.json config) })
      else .ok (false, fs1)

/-- `add_custom_repository` (config.py lines 77-93): load, and when the
url is not in `config["custom_repositories"]` append it and save,
otherwise return `False` without saving.  When that entry is not a list,
Python raises (`KeyError` on a missing key, `TypeError` on `in` over a
non-container, `AttributeError` on `.append`), except that `in` over a
string or dict that already "contains" the url short-circuits to the
`False` branch. -/
def add_custom_repository (url : String) (fs : FS) : Except Unit (Bool × FS) :=
  match load_config fs with
  | .error e => .error e
  | .ok (config, fs1) =>
    match config with
    | .jobj fields =>
      match getKey fields "custom_repositories" with
      | some (.jarr repos) =>
          if listContainsStr repos url then .ok (false, fs1)
          else
            save_config
              (.jobj (setKey fields "custom_repositories"
                (.jarr (repos ++ [JValue.jstr url])))) fs1
      | some (.jstr s) =>
          if strContains s url then .ok (false, fs1) else .error ()
      | some (.jobj inner) =>
          if hasKey inner url then .ok (false, fs1) else .error ()
      | some _ => .error ()
      | none => .error ()
    | _ => .error ()

/-- `remove_custom_repository` (config.py lines 96-112): load, and when
the url is in `config["custom_repositories"]` remove its first occurrence
and save, otherwise return `False` without saving.  Non-list entries
raise as in `add_custom_repository` (here the `.remove` call raises
`AttributeError` when the membership test succeeded on a non-list). -/
def remove_custom_repository (url : String) (fs : FS) : Except Unit (Bool × FS) :=
  match load_config fs with
  | .error e => .error e
  | .ok (config, fs1) =>
    match config with
    | .jobj fields =>
      match getKey fields "custom_repositories" with
      | some (.jarr repos) =>
          if listContainsStr repos url then
            save_config
              (.jobj (setKey fields "custom_repositories"
                (.jarr (removeFirst repos url)))) fs1
          else .ok (false, fs1)
      | some (.jstr s) =>
          if strContains s url then .error () else .ok (false, fs1)
      | some (.jobj inner) =>
          if hasKey inner url then .error () else .ok (false, fs1)
      | some _ => .error ()
      | none => .error ()
    | _ => .error ()

/-- `get_custom_repositories` (config.py lines 115-123):
`config.get("custom_repositories", [])`; calling `.get` on a non-dict
load result raises `AttributeError`. -/
def get_custom_repositories (fs : FS) : Except Unit (JValue × FS) :=
  match load_config fs with
  | .error e => .error e
  | .ok (config, fs1) =>
    match config with
    | .jobj fields =>
      match getKey fields "custom_repositories" with
      | some v => .ok (v, fs1)
      | none => .ok (.jarr [], fs1)
    | _ => .error ()

/-- `get_setting` (config.py lines 126-138):
`config.get("settings", {}).get(key, default)`.  The caller-supplied
default is an `Option JValue`, `none` standing for Python `None`; the
result uses the same encoding.  `.get` on a non-dict (load result or
`settings` value) raises `AttributeError`. -/
def get_setting (key : String) (default : Option JValue) (fs : FS) :
    Except Unit (Option JValue × FS) :=
  match load_config fs with
  | .error e => .error e
  | .ok (config, fs1) =>
    match config with
    | .jobj fields =>
      match getKey fields "settings" with
      | some (.jobj settings) =>
          match getKey settings key with
          | some v => .ok (some v, fs1)
          | none => .ok (default, fs1)
      | some _ => .error ()
      | none => .ok (default, fs1)
    | _ => .error ()

/-- `set_setting` (config.py lines 141-157): load, initialise
`config["settings"]` to `{}` when absent, set `settings[key] = value`,
save and return its result.  A non-dict load result or a non-dict
`settings` value raises `TypeError` at one of the subscript or
assignment steps. -/
def set_setting (key : String) (value : JValue) (fs : FS) :
    Except Unit (Bool × FS) :=
  match load_config fs with
  | .error e => .error e
  | .ok (config, fs1) =>
    match config with
    | .jobj fields =>
      let fields1 :=
        if hasKey fields "settings" then fields
        else setKey fields "settings" (.jobj [])
      match getKey fields1 "settings" with
      | some (.jobj settings) =>
          save_config
            (.jobj (setKey fields1 "settings"
              (.jobj (setKey settings key value)))) fs1
      | some _ => .error ()
      | none => .error ()
    | _ => .error ()

/-- One iteration of the merge loop in `load_config`: add the default
binding `p` when its key is absent.  `mergeDefaults` is definitionally
its twofold application to the two default bindings. -/
def addIfAbsent (l : List (String × JValue)) (p : String × JValue) :
    List (String × JValue) :=
  if hasKey l p.1 then l else l ++ [p]

/-- The filesystem state after a successful `save_config c`: the
directory exists and the file holds the serialized `c`. -/
def savedState (fs : FS) (c : JValue) : FS :=
  { fs with dirExists := true, file := some (.json c) }

/-! Helper lemmas about the dictionary and list operations. -/

theorem hasKey_eq_isSome (l : List (String × JValue)) (k : String) :
    hasKey l k = (getKey l k).isSome := rfl

theorem hasKey_of_getKey_some {l : List (String × JValue)} {k : String}
    {v : JValue} (h : getKey l k = some v) : hasKey l k = true := by
  simp [hasKey, h]

theorem getKey_eq_none_of_hasKey_false {l : List (String × JValue)}
    {k : String} (h : hasKey l k = false) : getKey l k = none := by
  rw [hasKey_eq_isSome] at h
  exact Option.not_isSome_iff_eq_none.mp (by simp [h])

theorem getKey_append (l m : List (String × JValue)) (k : String) :
    getKey (l ++ m) k =
      match getKey l k with
      | some v => some v
      | none => getKey m k := by
  induction l with
  | nil => simp [getKey]
  | cons p rest ih =>
      obtain ⟨k0, v0⟩ := p
      by_cases h : k0 = k <;> simp [getKey, h, ih]

theorem getKey_append_of_some {l m : List (String × JValue)} {k : String}
    {v : JValue} (h : getKey l k = some v) : getKey (l ++ m) k = some v := by
  rw [getKey_append, h]

theorem getKey_append_of_none {l m : List (String × JValue)} {k : String}
    (h : getKey l k = none) : getKey (l ++ m) k = getKey m k := by
  rw [getKey_append, h]

theorem hasKey_append (l m : List (String × JValue)) (k : String) :
    hasKey (l ++ m) k = (hasKey l k || hasKey m k) := by
  rw [hasKey_eq_isSome, hasKey_eq_isSome, hasKey_eq_isSome, getKey_append]
  cases getKey l k <;> simp

theorem getKey_setKey_self (l : List (String × JValue)) (k : String)
    (v : JValue) : getKey (setKey l k v) k = some v := by
  induction l with
  | nil => simp [setKey, getKey]
  | cons p rest ih =>
      obtain ⟨k0, v0⟩ := p
      by_cases h : k0 = k <;> simp [setKey, getKey, h, ih]

theorem getKey_setKey_other {l : List (String × JValue)} {k k' : String}
    (v : JValue) (h : k' ≠ k) :
    getKey (setKey l k v) k' = getKey l k' := by
  have hne : ¬ k = k' := fun hh => h hh.symm
  induction l with
  | nil => simp [setKey, getKey, hne]
  | cons p rest ih =>
      obtain ⟨k0, v0⟩ := p
      by_cases h0 : k0 = k
      · subst h0
        simp [setKey, getKey, hne]
      · simp [setKey, getKey, h0, ih]

theorem hasKey_setKey_self (l : List (String × JValue)) (k : String)
    (v : JValue) : hasKey (setKey l k v) k = true :=
  hasKey_of_getKey_some (getKey_setKey_self l k v)

theorem hasKey_setKey_other {l : List (String × JValue)} {k k' : String}
    (v : JValue) (h : k' ≠ k) :
    hasKey (setKey l k v) k' = hasKey l k' := by
  rw [hasKey_eq_isSome, hasKey_eq_isSome, getKey_setKey_other v h]

theorem listContainsStr_append (l m : List JValue) (u : String) :
    listContainsStr (l ++ m) u = (listContainsStr l u || listContainsStr m u) := by
  induction l with
  | nil => simp [listContainsStr]
  | cons x xs ih => simp [listContainsStr, ih, Bool.or_assoc]

theorem listContainsStr_self_singleton (u : String) :
    listContainsStr [JValue.jstr u] u = true := by
  simp [listContainsStr, eqStr]

theorem countOcc_append (l m : List JValue) (u : String) :
    countOcc (l ++ m) u = countOcc l u + countOcc m u := by
  induction l with
  | nil => simp [countOcc]
  | cons x xs ih => simp [countOcc, ih]; omega

theorem countOcc_eq_zero_of_not_contains {l : List JValue} {u : String}
    (h : listContainsStr l u = false) : countOcc l u = 0 := by
  induction l with
  | nil => simp [countOcc]
  | cons x xs ih =>
      simp [listContainsStr] at h
      simp [countOcc, h.1, ih h.2]

theorem countOcc_self_singleton (u : String) :
    countOcc [JValue.jstr u] u = 1 := by
  simp [countOcc, eqStr]

/-! Helper lemmas about the default merge performed by `load_config`. -/

theorem mergeDefaults_eq_steps (fields : List (String × JValue)) :
    mergeDefaults fields =
      addIfAbsent (addIfAbsent fields ("custom_repositories", .jarr []))
        ("settings", .jobj default_settings) := rfl

theorem addIfAbsent_of_hasKey (l : List (String × JValue))
    (p : String × JValue) (h : hasKey l p.1 = true) :
    addIfAbsent l p = l := by
  unfold addIfAbsent
  rw [if_pos h]

theorem addIfAbsent_exists_append (l : List (String × JValue))
    (p : String × JValue) : ∃ t, addIfAbsent l p = l ++ t := by
  unfold addIfAbsent
  split
  · exact ⟨[], by simp⟩
  · exact ⟨[p], rfl⟩

theorem getKey_addIfAbsent_of_some (l : List (String × JValue))
    (p : String × JValue) {k : String} {v : JValue}
    (h : getKey l k = some v) : getKey (addIfAbsent l p) k = some v := by
  obtain ⟨t, ht⟩ := addIfAbsent_exists_append l p
  rw [ht]
  exact getKey_append_of_some h

theorem hasKey_addIfAbsent_of_hasKey (l : List (String × JValue))
    (p : String × JValue) {k : String} (h : hasKey l k = true) :
    hasKey (addIfAbsent l p) k = true := by
  obtain ⟨t, ht⟩ := addIfAbsent_exists_append l p
  rw [ht, hasKey_append, h]
  simp

theorem hasKey_addIfAbsent_self (l : List (String × JValue))
    (p : String × JValue) : hasKey (addIfAbsent l p) p.1 = true := by
  unfold addIfAbsent
  split
  · assumption
  · obtain ⟨a, b⟩ := p
    rw [hasKey_append]
    simp [hasKey, getKey]

theorem getKey_addIfAbsent_of_absent (l : List (String × JValue))
    (p : String × JValue) (h : hasKey l p.1 = false) :
    getKey (addIfAbsent l p) p.1 = some p.2 := by
  unfold addIfAbsent
  rw [if_neg (by simp [h]), getKey_append_of_none (getKey_eq_none_of_hasKey_false h)]
  obtain ⟨a, b⟩ := p
  simp [getKey]

theorem getKey_addIfAbsent_other (l : List (String × JValue))
    (p : String × JValue) {k : String} (h : k ≠ p.1) :
    getKey (addIfAbsent l p) k = getKey l k := by
  unfold addIfAbsent
  split
  · rfl
  · rw [getKey_append]
    obtain ⟨a, b⟩ := p
    have hne : ¬ a = k := fun hh => h hh.symm
    cases hg : getKey l k
    · simp [getKey, hne]
    · rfl

theorem mergeDefaults_of_hasKey_both {l : List (String × JValue)}
    (h1 : hasKey l "custom_repositories" = true)
    (h2 : hasKey l "settings" = true) : mergeDefaults l = l := by
  rw [mergeDefaults_eq_steps,
    addIfAbsent_of_hasKey l ("custom_repositories", .jarr []) h1,
    addIfAbsent_of_hasKey l ("settings", .jobj default_settings) h2]

theorem mergeDefaults_exists_append (l : List (String × JValue)) :
    ∃ t, mergeDefaults l = l ++ t := by
  rw [mergeDefaults_eq_steps]
  obtain ⟨t1, ht1⟩ :=
    addIfAbsent_exists_append l ("custom_repositories", .jarr [])
  obtain ⟨t2, ht2⟩ :=
    addIfAbsent_exists_append (addIfAbsent l ("custom_repositories", .jarr []))
      ("settings", .jobj default_settings)
  exact ⟨t1 ++ t2, by rw [ht2, ht1, List.append_assoc]⟩

theorem getKey_mergeDefaults_of_some {l : List (String × JValue)} {k : String}
    {v : JValue} (h : getKey l k = some v) :
    getKey (mergeDefaults l) k = some v := by
  rw [mergeDefaults_eq_steps]
  exact getKey_addIfAbsent_of_some _ _ (getKey_addIfAbsent_of_some _ _ h)

theorem getKey_mergeDefaults_of_hasKey {l : List (String × JValue)}
    {k : String} (h : hasKey l k = true) :
    getKey (mergeDefaults l) k = getKey l k := by
  rw [hasKey_eq_isSome] at h
  obtain ⟨v, hv⟩ := Option.isSome_iff_exists.mp h
  rw [hv]
  exact getKey_mergeDefaults_of_some hv

theorem hasKey_mergeDefaults_cr (l : List (String × JValue)) :
    hasKey (mergeDefaults l) "custom_repositories" = true := by
  rw [mergeDefaults_eq_steps]
  exact hasKey_addIfAbsent_of_hasKey _ _
    (hasKey_addIfAbsent_self l ("custom_repositories", .jarr []))

theorem hasKey_mergeDefaults_st (l : List (String × JValue)) :
    hasKey (mergeDefaults l) "settings" = true := by
  rw [mergeDefaults_eq_steps]
  exact hasKey_addIfAbsent_self _ ("settings", .jobj default_settings)

theorem getKey_mergeDefaults_cr_of_absent {l : List (String × JValue)}
    (h : hasKey l "custom_repositories" = false) :
    getKey (mergeDefaults l) "custom_repositories" = some (.jarr []) := by
  rw [mergeDefaults_eq_steps]
  exact getKey_addIfAbsent_of_some _ _
    (getKey_addIfAbsent_of_absent l ("custom_repositories", .jarr []) h)

theorem getKey_mergeDefaults_st_of_absent {l : List (String × JValue)}
    (h : hasKey l "settings" = false) :
    getKey (mergeDefaults l) "settings" = some (.jobj default_settings) := by
  rw [mergeDefaults_eq_steps]
  refine getKey_addIfAbsent_of_absent _
    ("settings", .jobj default_settings) ?_
  rw [hasKey_eq_isSome,
    getKey_addIfAbsent_other l ("custom_repositories", JValue.jarr [])
      (by decide),
    ← hasKey_eq_isSome]
  exact h

/-! Helper lemmas about `load_config` and `save_config`. -/

theorem default_config_eq_merge_nil : default_config = mergeDefaults [] := rfl

theorem load_config_file_none {fs : FS} (h : fs.file = none) :
    load_config fs = .ok (.jobj default_config, fs) := by
  unfold load_config
  rw [h]

theorem load_config_junk {fs : FS} (h : fs.file = some .junk) :
    load_config fs = .ok (.jobj default_config, fs) := by
  unfold load_config
  rw [h]
  cases hr : fs.readOk <;> simp

theorem load_config_read_fail {fs : FS} {c : FileContent}
    (hfile : fs.file = some c) (hr : fs.readOk = false) :
    load_config fs = .ok (.jobj default_config, fs) := by
  unfold load_config
  rw [hfile, hr]
  simp

theorem load_config_json_obj {fs : FS} {g : List (String × JValue)}
    (hfile : fs.file = some (.json (.jobj g))) (hr : fs.readOk = true) :
    load_config fs = .ok (.jobj (mergeDefaults g), fs) := by
  unfold load_config
  rw [hfile, hr]
  rfl

theorem load_config_fs_eq {fs : FS} {v : JValue} {fs₁ : FS}
    (h : load_config fs = .ok (v, fs₁)) : fs₁ = fs := by
  unfold load_config at h
  repeat' split at h
  all_goals simp_all

theorem load_config_obj_hasKeys {fs : FS} {fields : List (String × JValue)}
    {fs₁ : FS} (h : load_config fs = .ok (.jobj fields, fs₁)) :
    hasKey fields "custom_repositories" = true ∧
      hasKey fields "settings" = true := by
  have hcr := hasKey_mergeDefaults_cr
  have hst := hasKey_mergeDefaults_st
  unfold load_config at h
  repeat' split at h
  all_goals simp_all [default_config_eq_merge_nil]
  all_goals (rw [← h.1]; exact ⟨hcr _, hst _⟩)

theorem save_config_ok (c : JValue) {fs : FS}
    (h : fs.dirExists = true ∨ fs.mkdirOk = true) :
    save_config c fs =
      if fs.writeOk then Except.ok (true, savedState fs c)
      else Except.ok (false, { fs with dirExists := true }) := by
  rcases fs with ⟨d, m, file, r, w⟩
  unfold save_config ensure_config_dir savedState
  cases d <;> cases m <;> cases w <;> simp_all

/-! Claim theorems. -/

/-- C1: for every configuration whose top-level keys include both
`custom_repositories` and `settings`, if `save_config` succeeds
(returns `True`) then an immediately following `load_config` (with the
fresh file readable) returns a value equal to the saved
configuration. -/
theorem save_load_round_trip (fields : List (String × JValue)) (fs fs' : FS)
    (hcr : hasKey fields "custom_repositories" = true)
    (hst : hasKey fields "settings" = true)
    (hread : fs.readOk = true)
    (hsave : save_config (.jobj fields) fs = .ok (true, fs')) :
    load_config fs' = .ok (.jobj fields, fs') := by
  rcases fs with ⟨d, m, file, r, w⟩
  simp only [FS.readOk] at hread
  subst hread
  cases d <;> cases m <;> cases w <;>
    simp [save_config, ensure_config_dir] at hsave
  all_goals
    (subst hsave
     rw [load_config_json_obj rfl rfl, mergeDefaults_of_hasKey_both hcr hst])

/-- Witness for C1 at a concrete configuration and filesystem state. -/
theorem save_load_round_trip_witness :
    load_config ⟨true, true, some (.json (.jobj default_config)), true, true⟩ =
      .ok (.jobj default_config,
        ⟨true, true, some (.json (.jobj default_config)), true, true⟩) :=
  save_load_round_trip default_config ⟨true, true, none, true, true⟩
    ⟨true, true, some (.json (.jobj default_config)), true, true⟩
    rfl rfl rfl rfl

/-- C2: `load_config` returns the full default configuration, without
raising and with the filesystem state unchanged (in particular the file
is neither created nor modified), when the file is absent, when reading
it fails with an I/O error, and when its text fails to parse. -/
theorem load_config_defaults_on_failure (fs : FS) :
    (fs.file = none → load_config fs = .ok (.jobj default_config, fs)) ∧
    (∀ c, fs.file = some c → fs.readOk = false →
      load_config fs = .ok (.jobj default_config, fs)) ∧
    (fs.file = some .junk → load_config fs = .ok (.jobj default_config, fs)) :=
  ⟨fun h => load_config_file_none h,
   fun _ hc hr => load_config_read_fail hc hr,
   fun h => load_config_junk h⟩

/-- Witness for C2 at three concrete filesystem states: absent file,
unreadable file, unparseable file. -/
theorem load_config_defaults_on_failure_witness :
    load_config ⟨true, true, none, true, true⟩ =
      .ok (.jobj default_config, ⟨true, true, none, true, true⟩) ∧
    load_config ⟨true, true, some (.json (.jobj [])), false, true⟩ =
      .ok (.jobj default_config,
        ⟨true, true, some (.json (.jobj [])), false, true⟩) ∧
    load_config ⟨true, true, some .junk, true, true⟩ =
      .ok (.jobj default_config, ⟨true, true, some .junk, true, true⟩) :=
  ⟨(load_config_defaults_on_failure _).1 rfl,
   (load_config_defaults_on_failure _).2.1 _ rfl rfl,
   (load_config_defaults_on_failure _).2.2 rfl⟩

/-- C6 counterexample: in the filesystem state where the configuration
directory is absent and creating it fails, `save_config` does not
return a boolean at all — the `os.makedirs` error from
`ensure_config_dir` propagates uncaught past the component boundary. -/
theorem save_config_mkdir_error_example :
    save_config (.jobj default_config) ⟨false, false, none, true, true⟩ =
      .error () := rfl

/-- C6 amended: except when the configuration directory is absent and
creating it fails (where the directory-creation error propagates
uncaught), `save_config` returns `True` on success and `False` on write
I/O failure; the write error is caught and converted to a boolean,
never raised. -/
theorem save_config_bool_result (c : JValue) (fs : FS)
    (h : fs.dirExists = true ∨ fs.mkdirOk = true) :
    (fs.writeOk = true → save_config c fs =
      .ok (true, { fs with dirExists := true, file := some (.json c) })) ∧
    (fs.writeOk = false → save_config c fs =
      .ok (false, { fs with dirExists := true })) := by
  constructor <;> intro hw <;> rw [save_config_ok c h, hw] <;>
    simp [savedState, hw]

/-- Witness for the amended C6: a successful write returns `True`, a
failing write returns `False`. -/
theorem save_config_bool_result_witness :
    save_config (.jobj []) ⟨false, true, none, true, true⟩ =
      .ok (true, ⟨true, true, some (.json (.jobj [])), true, true⟩) ∧
    save_config (.jobj []) ⟨true, true, none, true, false⟩ =
      .ok (false, ⟨true, true, none, true, false⟩) :=
  ⟨(save_config_bool_result _ _ (Or.inr rfl)).1 rfl,
   (save_config_bool_result _ _ (Or.inl rfl)).2 rfl⟩

/-- C9: the fail-safe in `load_config` covers only I/O and parse
errors: on a file whose text is valid JSON with a non-object top-level
value (here the texts `5` and `[1, 2]`), `load_config` raises an
uncaught `TypeError` instead of returning the default configuration. -/
theorem load_config_error_on_nonobject :
    load_config ⟨true, true, some (.json (.jint 5)), true, true⟩ =
      .error () ∧
    load_config ⟨true, true, some (.json (.jarr [.jint 1, .jint 2])), true,
      true⟩ = .error () :=
  ⟨rfl, rfl⟩

/-- C3: for every stored document that parses as an object,
`load_config` injects the built-in default value for each of the two
top-level keys that is absent (a stored `{}` yields the full default),
and the merge is shallow: a `settings` mapping present in the document
is returned as-is, with no default keys injected into it. -/
theorem load_config_merge_shallow (fs : FS) (fields : List (String × JValue))
    (hfile : fs.file = some (.json (.jobj fields)))
    (hread : fs.readOk = true) :
    load_config fs = .ok (.jobj (mergeDefaults fields), fs) ∧
    (hasKey fields "custom_repositories" = false →
      getKey (mergeDefaults fields) "custom_repositories" = some (.jarr [])) ∧
    (hasKey fields "settings" = false →
      getKey (mergeDefaults fields) "settings" =
        some (.jobj default_settings)) ∧
    (hasKey fields "settings" = true →
      getKey (mergeDefaults fields) "settings" = getKey fields "settings") ∧
    (fields = [] → mergeDefaults fields = default_config) :=
  ⟨load_config_json_obj hfile hread,
   fun h => getKey_mergeDefaults_cr_of_absent h,
   fun h => getKey_mergeDefaults_st_of_absent h,
   fun h => getKey_mergeDefaults_of_hasKey h,
   fun h => by rw [h, ← default_config_eq_merge_nil]⟩

/-- Witness for C3: loading a stored `{}` back-fills both defaults, and
a stored `settings` mapping (here `{}`) is kept as-is. -/
theorem load_config_merge_shallow_witness :
    load_config ⟨true, true, some (.json (.jobj [])), true, true⟩ =
      .ok (.jobj (mergeDefaults []),
        ⟨true, true, some (.json (.jobj [])), true, true⟩) ∧
    getKey (mergeDefaults []) "custom_repositories" = some (.jarr []) ∧
    getKey (mergeDefaults []) "settings" = some (.jobj default_settings) ∧
    mergeDefaults [] = default_config ∧
    getKey (mergeDefaults [("settings", .jobj [])]) "settings" =
      getKey [("settings", .jobj [])] "settings" :=
  ⟨(load_config_merge_shallow _ [] rfl rfl).1,
   (load_config_merge_shallow ⟨true, true, some (.json (.jobj [])), true,
      true⟩ [] rfl rfl).2.1 rfl,
   (load_config_merge_shallow ⟨true, true, some (.json (.jobj [])), true,
      true⟩ [] rfl rfl).2.2.1 rfl,
   (load_config_merge_shallow ⟨true, true, some (.json (.jobj [])), true,
      true⟩ [] rfl rfl).2.2.2.2 rfl,
   (load_config_merge_shallow ⟨true, true,
      some (.json (.jobj [("settings", .jobj [])])), true, true⟩
      [("settings", .jobj [])] rfl rfl).2.2.2.1 rfl⟩

/-- C8: a top-level key other than the two known ones is preserved
verbatim by `load_config`, and is round-tripped through a following
`save_config` of the loaded configuration. -/
theorem load_config_preserves_unknown_keys (fs : FS)
    (fields : List (String × JValue)) (k : String) (v : JValue)
    (hfile : fs.file = some (.json (.jobj fields)))
    (hread : fs.readOk = true)
    (_hk1 : k ≠ "custom_repositories") (_hk2 : k ≠ "settings")
    (hv : getKey fields k = some v) :
    load_config fs = .ok (.jobj (mergeDefaults fields), fs) ∧
    getKey (mergeDefaults fields) k = some v ∧
    (fs.dirExists = true → fs.writeOk = true →
      ∃ fs', save_config (.jobj (mergeDefaults fields)) fs = .ok (true, fs') ∧
        fs'.file = some (.json (.jobj (mergeDefaults fields)))) := by
  refine ⟨load_config_json_obj hfile hread,
    getKey_mergeDefaults_of_some hv, ?_⟩
  intro hd hw
  refine ⟨savedState fs (.jobj (mergeDefaults fields)), ?_, rfl⟩
  rw [save_config_ok _ (Or.inl hd), if_pos hw]

/-- Witness for C8: an unknown key `theme` survives the load merge. -/
theorem load_config_preserves_unknown_keys_witness :
    getKey (mergeDefaults [("theme", .jstr "dark")]) "theme" =
      some (.jstr "dark") :=
  (load_config_preserves_unknown_keys
    ⟨true, true, some (.json (.jobj [("theme", .jstr "dark")])), true, true⟩
    [("theme", .jstr "dark")] "theme" (.jstr "dark")
    rfl rfl (by decide) (by decide) rfl).2.1

/-- C10: the read-only operations `load_config`,
`get_custom_repositories` and `get_setting` never write to or modify
the configuration file: whenever one of them returns, the filesystem
state after the call (in particular the file's content or absence)
equals the state before it. -/
theorem readonly_ops_preserve_fs (fs : FS) :
    (∀ v fs₁, load_config fs = .ok (v, fs₁) → fs₁ = fs) ∧
    (∀ v fs₁, get_custom_repositories fs = .ok (v, fs₁) → fs₁ = fs) ∧
    (∀ k d v fs₁, get_setting k d fs = .ok (v, fs₁) → fs₁ = fs) := by
  refine ⟨fun v fs₁ h => load_config_fs_eq h, ?_, ?_⟩
  · intro v fs₁ h
    unfold get_custom_repositories at h
    cases hl : load_config fs with
    | error e => rw [hl] at h; simp at h
    | ok p =>
      obtain ⟨cv, cfs⟩ := p
      have hfs := load_config_fs_eq hl
      subst hfs
      rw [hl] at h
      repeat' split at h
      all_goals simp_all
  · intro k d v fs₁ h
    unfold get_setting at h
    cases hl : load_config fs with
    | error e => rw [hl] at h; simp at h
    | ok p =>
      obtain ⟨cv, cfs⟩ := p
      have hfs := load_config_fs_eq hl
      subst hfs
      rw [hl] at h
      repeat' split at h
      all_goals simp_all

/-- Witness for C10: the three read-only operations return the state
they were given, at a concrete filesystem state. -/
theorem readonly_ops_preserve_fs_witness :
    ((⟨true, true, none, true, true⟩ : FS) = ⟨true, true, none, true, true⟩ ∧
     (⟨true, true, none, true, true⟩ : FS) = ⟨true, true, none, true, true⟩ ∧
     (⟨true, true, none, true, true⟩ : FS) = ⟨true, true, none, true, true⟩) :=
  ⟨(readonly_ops_preserve_fs _).1 (.jobj default_config) _ rfl,
   (readonly_ops_preserve_fs _).2.1 (.jarr []) _ rfl,
   (readonly_ops_preserve_fs _).2.2 "cache_expiry" none (some (.jint 300))
     _ rfl⟩

/-- C4: when the url is already in the stored repository list,
`add_custom_repository` returns `False` and performs no save (the state
is unchanged); otherwise it appends the url as last entry, preserving
the prior order, and returns exactly the result of saving the updated
configuration.  Calling it twice with the same url (under a working
filesystem) leaves exactly one occurrence in the stored list and the
second call returns `False`. -/
theorem add_repository_spec (url : String) (fs : FS)
    (fields : List (String × JValue)) (repos : List JValue)
    (hload : load_config fs = .ok (.jobj fields, fs))
    (hrepos : getKey fields "custom_repositories" = some (.jarr repos)) :
    (listContainsStr repos url = true →
      add_custom_repository url fs = .ok (false, fs)) ∧
    (listContainsStr repos url = false →
      add_custom_repository url fs =
        save_config (.jobj (setKey fields "custom_repositories"
          (.jarr (repos ++ [.jstr url])))) fs) ∧
    (listContainsStr repos url = false → fs.dirExists = true →
      fs.writeOk = true → fs.readOk = true →
      ∃ fs', add_custom_repository url fs = .ok (true, fs') ∧
        fs'.file = some (.json (.jobj (setKey fields "custom_repositories"
          (.jarr (repos ++ [.jstr url]))))) ∧
        countOcc (repos ++ [.jstr url]) url = 1 ∧
        add_custom_repository url fs' = .ok (false, fs')) := by
  refine ⟨?_, ?_, ?_⟩
  · intro hmem
    simp [add_custom_repository, hload, hrepos, hmem]
  · intro hmem
    simp [add_custom_repository, hload, hrepos, hmem]
  · intro hmem hd hw hr
    have hsave := save_config_ok (.jobj (setKey fields "custom_repositories"
      (.jarr (repos ++ [.jstr url])))) (Or.inl hd)
    rw [if_pos hw] at hsave
    refine ⟨savedState fs (JValue.jobj (setKey fields "custom_repositories"
      (JValue.jarr (repos ++ [JValue.jstr url])))), ?_, rfl, ?_, ?_⟩
    · simp [add_custom_repository, hload, hrepos, hmem, hsave]
    · rw [countOcc_append, countOcc_eq_zero_of_not_contains hmem,
        countOcc_self_singleton]
    · have hload2 : load_config (savedState fs (.jobj (setKey fields
          "custom_repositories" (.jarr (repos ++ [.jstr url]))))) =
          .ok (.jobj (mergeDefaults (setKey fields "custom_repositories"
            (.jarr (repos ++ [.jstr url])))),
            savedState fs (.jobj (setKey fields "custom_repositories"
              (.jarr (repos ++ [.jstr url]))))) :=
        load_config_json_obj rfl hr
      have hget2 : getKey (mergeDefaults (setKey fields "custom_repositories"
          (.jarr (repos ++ [.jstr url])))) "custom_repositories" =
          some (.jarr (repos ++ [.jstr url])) := by
        rw [getKey_mergeDefaults_of_hasKey (hasKey_setKey_self _ _ _),
          getKey_setKey_self]
      have hmem2 : listContainsStr (repos ++ [.jstr url]) url = true := by
        rw [listContainsStr_append, listContainsStr_self_singleton]
        simp
      simp [add_custom_repository, hload2, hget2, hmem2]

/-- Witness for C4 at a concrete state: adding a url to an empty list
succeeds, stores exactly one occurrence, and a second add returns
`False`. -/
theorem add_repository_spec_witness :
    ∃ fs', add_custom_repository "https://example.com/repo"
        ⟨true, true, none, true, true⟩ = .ok (true, fs') ∧
      fs'.file = some (.json (.jobj (setKey default_config
        "custom_repositories" (.jarr [.jstr "https://example.com/repo"])))) ∧
      countOcc [JValue.jstr "https://example.com/repo"]
        "https://example.com/repo" = 1 ∧
      add_custom_repository "https://example.com/repo" fs' =
        .ok (false, fs') :=
  (add_repository_spec "https://example.com/repo"
    ⟨true, true, none, true, true⟩ default_config []
    rfl rfl).2.2 rfl rfl rfl rfl

/-- C5: when the url is not in the stored repository list,
`remove_custom_repository` returns `False` with the filesystem state
(and thus the stored file) unchanged, attempting no save; otherwise it
removes the first matching entry and returns exactly the result of
saving the updated configuration. -/
theorem remove_repository_spec (url : String) (fs : FS)
    (fields : List (String × JValue)) (repos : List JValue)
    (hload : load_config fs = .ok (.jobj fields, fs))
    (hrepos : getKey fields "custom_repositories" = some (.jarr repos)) :
    (listContainsStr repos url = false →
      remove_custom_repository url fs = .ok (false, fs)) ∧
    (listContainsStr repos url = true →
      remove_custom_repository url fs =
        save_config (.jobj (setKey fields "custom_repositories"
          (.jarr (removeFirst repos url)))) fs) := by
  constructor <;> intro hmem <;>
    simp [remove_custom_repository, hload, hrepos, hmem]

/-- Witness for C5: removing a url absent from the stored list returns
`False` and leaves the state unchanged; removing a present url saves
the list with its first occurrence dropped. -/
theorem remove_repository_spec_witness :
    remove_custom_repository "https://example.com/repo"
        ⟨true, true, none, true, true⟩ =
      .ok (false, ⟨true, true, none, true, true⟩) ∧
    remove_custom_repository "a"
        ⟨true, true, some (.json (.jobj [("custom_repositories",
          .jarr [.jstr "a"]), ("settings", .jobj [])])), true, true⟩ =
      save_config (.jobj [("custom_repositories", .jarr []),
        ("settings", .jobj [])])
        ⟨true, true, some (.json (.jobj [("custom_repositories",
          .jarr [.jstr "a"]), ("settings", .jobj [])])), true, true⟩ :=
  ⟨(remove_repository_spec "https://example.com/repo"
      ⟨true, true, none, true, true⟩ default_config [] rfl rfl).1 rfl,
   (remove_repository_spec "a"
      ⟨true, true, some (.json (.jobj [("custom_repositories",
        .jarr [.jstr "a"]), ("settings", .jobj [])])), true, true⟩
      [("custom_repositories", .jarr [.jstr "a"]), ("settings", .jobj [])]
      [.jstr "a"] rfl rfl).2 rfl⟩

/-- C7: after `set_setting "x" 1` succeeds, `get_setting "x"` returns
`1`; and for every key absent from the stored settings mapping,
`get_setting` returns the caller-supplied default (which may itself be
`None`). -/
theorem set_get_setting_spec (fs : FS)
    (fields settings : List (String × JValue))
    (hload : load_config fs = .ok (.jobj fields, fs))
    (hset : getKey fields "settings" = some (.jobj settings))
    (hd : fs.dirExists = true) (hw : fs.writeOk = true)
    (hr : fs.readOk = true) :
    (∃ fs', set_setting "x" (.jint 1) fs = .ok (true, fs') ∧
      get_setting "x" none fs' = .ok (some (.jint 1), fs')) ∧
    (∀ k d, getKey settings k = none →
      get_setting k d fs = .ok (d, fs)) := by
  constructor
  · have hhas := hasKey_of_getKey_some hset
    have hsave := save_config_ok (.jobj (setKey fields "settings"
      (.jobj (setKey settings "x" (.jint 1))))) (Or.inl hd)
    rw [if_pos hw] at hsave
    refine ⟨savedState fs (.jobj (setKey fields "settings"
      (.jobj (setKey settings "x" (.jint 1))))), ?_, ?_⟩
    · simp [set_setting, hload, hhas, hset, hsave]
    · have hload2 : load_config (savedState fs (.jobj (setKey fields
          "settings" (.jobj (setKey settings "x" (.jint 1)))))) =
          .ok (.jobj (mergeDefaults (setKey fields "settings"
            (.jobj (setKey settings "x" (.jint 1))))),
            savedState fs (.jobj (setKey fields "settings"
              (.jobj (setKey settings "x" (.jint 1)))))) :=
        load_config_json_obj rfl hr
      have hget2 : getKey (mergeDefaults (setKey fields "settings"
          (.jobj (setKey settings "x" (.jint 1))))) "settings" =
          some (.jobj (setKey settings "x" (.jint 1))) := by
        rw [getKey_mergeDefaults_of_hasKey (hasKey_setKey_self _ _ _),
          getKey_setKey_self]
      simp [get_setting, hload2, hget2, getKey_setKey_self]
  · intro k d hk
    simp [get_setting, hload, hset, hk]

/-- Witness for C7: starting from no configuration file, setting `x` to
`1` then reading it back yields `1`, and reading the never-set key `y`
with default `99` yields `99`. -/
theorem set_get_setting_spec_witness :
    (∃ fs', set_setting "x" (.jint 1) ⟨true, true, none, true, true⟩ =
        .ok (true, fs') ∧
      get_setting "x" none fs' = .ok (some (.jint 1), fs')) ∧
    get_setting "y" (some (.jint 99)) ⟨true, true, none, true, true⟩ =
      .ok (some (.jint 99), ⟨true, true, none, true, true⟩) :=
  ⟨(set_get_setting_spec ⟨true, true, none, true, true⟩ default_config
      default_settings rfl rfl rfl rfl rfl).1,
   (set_get_setting_spec ⟨true, true, none, true, true⟩ default_config
      default_settings rfl rfl rfl rfl rfl).2 "y" (some (.jint 99)) rfl⟩

end OhMyTheme
